import Mathlib

/-!
Verification of the core logic of `scraper.py` (bbc-notifier): headline
extraction with prioritized selector fallback, title-dedup persistence,
per-recipient notification fan-out, and the orchestrating `main` run.

Strings are embedded as lists of characters (`Str`); Python `len` on a
string counts code points, as does `List.length` here.
-/

abbrev Str := List Char

/-- `p.isPrefixOf s`, embedding Python `s.startswith(p)`. -/
def strStartsWith (s p : Str) : Bool := p.isPrefixOf s

/-- Module constant `BBC_URL = "https://www.bbc.com"`. -/
def BBC_URL : Str := "https://www.bbc.com".toList

def httpPre : Str := "http://".toList

def httpsPre : Str := "https://".toList

/-- A headline candidate: the dict `{'title': ..., 'url': ...}`. -/
structure Headline where
  title : Str
  url : Str
deriving DecidableEq, Repr

/-- One element matched by a selector: its extracted visible text
(`a.get_text(' ', strip=True)`) and its `href` attribute, absent when the
element has none (`a.get('href', '')` then yields `''`). -/
structure Element where
  text : Str
  href : Option Str
deriving DecidableEq, Repr

/-- The url resolution step of `fetch_headlines`: a site-relative link is
prefixed with `BBC_URL`; an absolute http/https link is kept; anything
else is rejected (`none`). -/
def resolveUrl (url0 : Str) : Option Str :=
  if strStartsWith url0 ("/".toList) then some (BBC_URL ++ url0)
  else if strStartsWith url0 httpPre ∨ strStartsWith url0 httpsPre then some url0
  else none

/-- The inner loop of `fetch_headlines` over the elements matched by the
active selector: filter by title length, resolve/validate the link,
dedup by url, stop at 20 accepted candidates. -/
def processElements (headlines : List Headline) : List Element → List Headline
  | [] => headlines
  | e :: rest =>
    if e.text = [] ∨ e.text.length < 10 ∨ e.text.length > 150 then
      processElements headlines rest
    else if e.href.getD [] = [] then
      processElements headlines rest
    else
      match resolveUrl (e.href.getD []) with
      | none => processElements headlines rest
      | some url =>
        if headlines.any (fun h => h.url = url) then
          processElements headlines rest
        else if (headlines ++ [(⟨e.text, url⟩ : Headline)]).length ≥ 20 then
          headlines ++ [(⟨e.text, url⟩ : Headline)]
        else
          processElements (headlines ++ [(⟨e.text, url⟩ : Headline)]) rest

/-- The outer loop of `fetch_headlines` over the prioritized selectors:
`for selector in selectors: if headlines: break; ...`.  The markup is
embedded as, for each selector in priority order, the list of elements
`soup.select(selector)` matches. -/
def selectLoop : List Headline → List (List Element) → List Headline
  | headlines, [] => headlines
  | headlines, els :: rest =>
    if headlines.isEmpty then selectLoop (processElements headlines els) rest
    else headlines

/-- Outcome of the fetch/parse step: `failure` covers any exception
(network error, timeout, non-2xx via `raise_for_status`, parse error);
`success` carries the parsed markup as per-selector element lists. -/
inductive FetchResult where
  | failure
  | success (markup : List (List Element))

/-- `fetch_headlines`: the whole body is wrapped in `try/except`, returning
`[]` on any failure; on success it runs the selector fallback loop. -/
def fetch_headlines (r : FetchResult) : List Headline :=
  match r with
  | .failure => []
  | .success markup => selectLoop [] markup

/-- A persisted row of the `headlines` table (id and timestamp are
irrelevant to the verified properties; rows are kept in insertion order). -/
structure SeenRecord where
  title : Str
  url : Str
deriving DecidableEq, Repr

/-- `save_headlines(conn, headlines)`: for each candidate in input order,
`SELECT id FROM headlines WHERE title = ?`; if no row, insert and collect
the candidate.  The SELECT sees rows inserted earlier in the same call.
Returns (final table, new candidates). -/
def save_headlines : List SeenRecord → List Headline → List SeenRecord × List Headline
  | store, [] => (store, [])
  | store, item :: rest =>
    if store.any (fun r => r.title = item.title) then
      save_headlines store rest
    else
      let res := save_headlines (store ++ [⟨item.title, item.url⟩]) rest
      (res.1, item :: res.2)

/-- Python truthiness of the token loaded from the environment:
`not token` is true when the variable is unset or the empty string. -/
def tokenTruthy : Option Str → Bool
  | none => false
  | some t => !t.isEmpty

/-- Outcome of one `requests.post` to the Telegram API: an HTTP response
with some status code, or a raised exception (network error, timeout). -/
inductive SendOutcome where
  | response (status : Nat)
  | exn
deriving DecidableEq, Repr

/-- The per-recipient loop of `send_telegram_notification`: one attempt
per chat id in list order (the outcome of the i-th attempt is
`outcome i`); the `try/except` around each attempt means an exception
only skips the `success_count` increment.  Returns the success count and
the list of chat ids actually attempted, in order. -/
def notifyLoop (outcome : Nat → SendOutcome) (i : Nat) : List Str → Nat × List Str
  | [] => (0, [])
  | cid :: rest =>
    let res := notifyLoop outcome (i + 1) rest
    ((if outcome i = .response 200 then 1 else 0) + res.1, cid :: res.2)

/-- `send_telegram_notification(message)`: bail out with `(0, 0)` when the
credentials are missing, otherwise attempt every chat id and return
`(success_count, total_attempts, attempted ids)`. -/
def send_telegram_notification (token : Option Str) (chat_ids : List Str)
    (outcome : Nat → SendOutcome) : Nat × Nat × List Str :=
  if !(tokenTruthy token) || chat_ids.isEmpty then (0, 0, [])
  else
    let loop := notifyLoop outcome 0 chat_ids
    (loop.1, chat_ids.length, loop.2)

/-- The title truncation applied by `main` before embedding an item in the
headline message: `title[:77] + '...'` when `len(title) > 80`. -/
def truncTitle (t : Str) : Str :=
  if t.length > 80 then t.take 77 ++ "...".toList else t

/-- The message-building loop of `main`
(`for idx, item in enumerate(new_headlines[:5], 1)`), reified as the list
of embedded entries `(idx, truncated title, url)` in order. -/
def buildEntries (idx : Nat) : List Headline → List (Nat × Str × Str)
  | [] => []
  | item :: rest => (idx, truncTitle item.title, item.url) :: buildEntries (idx + 1) rest

/-- The entries embedded in the headline notification message: only the
first 5 new items, numbered from 1. -/
def headlineMessageEntries (new_headlines : List Headline) : List (Nat × Str × Str) :=
  buildEntries 1 (new_headlines.take 5)

/-- `is_first_run()`: count the rows of `headlines`; any exception while
doing so (missing file, missing table) yields `True`. -/
def is_first_run (countResult : Except Unit Nat) : Bool :=
  match countResult with
  | .error _ => true
  | .ok count => count == 0

/-- Observable effects of one run of `main`, in program order. -/
inductive Event where
  | bootstrapSent
  | dbInitOk
  | dbInitFailed
  | fetched (n : Nat)
  | saved (newCount : Nat)
  | headlineNotifySent
deriving DecidableEq, Repr

/-- The effectful inputs of one run of `main`: the loaded credentials, the
result of the `is_first_run` row count, the `setup_database` outcome
(`none` = failure, `some store` = the opened table contents) and the
fetch outcome. -/
structure Env where
  token : Option Str
  chat_ids : List Str
  firstRunCheck : Except Unit Nat
  dbInit : Option (List SeenRecord)
  fetch : FetchResult

/-- Valid notification configuration as `main` checks it:
`if not token or not chat_ids`. -/
def credsOk (env : Env) : Bool :=
  tokenTruthy env.token && !env.chat_ids.isEmpty

/-- The events emitted before database initialization: the first-run test
notification, sent when credentials are valid and `is_first_run` holds. -/
def bootEvents (env : Env) : List Event :=
  if credsOk env then
    if is_first_run env.firstRunCheck then [Event.bootstrapSent] else []
  else []

/-- `main()`, reduced to its event trace and process exit code.  The
credential check and first-run test notification precede
`setup_database`; a `None` connection makes `main` return (exit code 0);
otherwise fetch, save, and notify when there are new headlines and
credentials; every branch exits with code 0 (`KeyboardInterrupt` and
`Exception` are both caught). -/
def mainRun (env : Env) : List Event × Nat :=
  let ev1 : List Event := bootEvents env
  match env.dbInit with
  | none => (ev1 ++ [.dbInitFailed], 0)
  | some store =>
    let headlines := fetch_headlines env.fetch
    if headlines.isEmpty then (ev1 ++ [.dbInitOk, .fetched 0], 0)
    else
      let res := save_headlines store headlines
      let ev2 := ev1 ++ [.dbInitOk, .fetched headlines.length, .saved res.2.length]
      if !res.2.isEmpty && credsOk env then (ev2 ++ [.headlineNotifySent], 0)
      else (ev2, 0)

/-! ### Extractor invariants -/

/-- The per-candidate acceptance conditions of `fetch_headlines`. -/
def goodHeadline (h : Headline) : Prop :=
  (10 ≤ h.title.length ∧ h.title.length ≤ 150) ∧
  (strStartsWith h.url httpPre = true ∨ strStartsWith h.url httpsPre = true)

/-- Everything `fetch_headlines` guarantees of its accumulated list. -/
def extractedOk (hs : List Headline) : Prop :=
  hs.length ≤ 20 ∧ (hs.map Headline.url).Nodup ∧ ∀ h ∈ hs, goodHeadline h

lemma bbc_https (u : Str) : strStartsWith (BBC_URL ++ u) httpsPre = true := by
  have h : BBC_URL = httpsPre ++ "www.bbc.com".toList := by decide
  rw [strStartsWith, h, List.append_assoc, List.isPrefixOf_iff_prefix]
  exact List.prefix_append _ _

lemma resolveUrl_good {u url : Str} (h : resolveUrl u = some url) :
    strStartsWith url httpPre = true ∨ strStartsWith url httpsPre = true := by
  unfold resolveUrl at h
  split at h
  · injection h with h2
    subst h2
    right
    exact bbc_https u
  · split at h
    · next hc =>
      injection h with h2
      subst h2
      exact hc
    · cases h

lemma processElements_ok (els : List Element) : ∀ hs : List Headline,
    hs.length < 20 → (hs.map Headline.url).Nodup → (∀ h ∈ hs, goodHeadline h) →
    extractedOk (processElements hs els) := by
  induction els with
  | nil =>
    intro hs hlen hnd hg
    exact ⟨Nat.le_of_lt hlen, hnd, hg⟩
  | cons e rest ih =>
    intro hs hlen hnd hg
    rw [processElements]
    split
    · exact ih hs hlen hnd hg
    next h1 =>
      split
      · exact ih hs hlen hnd hg
      next h2 =>
        split
        · exact ih hs hlen hnd hg
        next url hres =>
          split
          · exact ih hs hlen hnd hg
          next hdup =>
            push_neg at h1
            have hnotmem : url ∉ hs.map Headline.url := by
              intro hmem
              apply hdup
              rw [List.any_eq_true]
              obtain ⟨h, hh, hurl⟩ := List.mem_map.mp hmem
              exact ⟨h, hh, by simp [hurl]⟩
            have hnd2 : ((hs ++ [(⟨e.text, url⟩ : Headline)]).map Headline.url).Nodup := by
              rw [List.map_append, List.nodup_append]
              refine ⟨hnd, List.nodup_singleton _, ?_⟩
              intro a ha hb
              simp only [List.map_cons, List.map_nil, List.mem_singleton] at hb
              subst hb
              exact hnotmem ha
            have hg2 : ∀ h ∈ hs ++ [(⟨e.text, url⟩ : Headline)], goodHeadline h := by
              intro h hh
              rcases List.mem_append.mp hh with hh | hh
              · exact hg h hh
              · rw [List.mem_singleton] at hh
                subst hh
                exact ⟨⟨h1.2.1, h1.2.2⟩, resolveUrl_good hres⟩
            split
            · refine ⟨?_, hnd2, hg2⟩
              simp only [List.length_append, List.length_singleton]
              omega
            next hlt =>
              apply ih
              · simp only [List.length_append, List.length_singleton] at hlt ⊢
                omega
              · exact hnd2
              · exact hg2

lemma extractedOk_nil : extractedOk [] := by
  refine ⟨by decide, List.nodup_nil, ?_⟩
  intro h hh
  cases hh

lemma selectLoop_ok (markup : List (List Element)) : ∀ hs : List Headline,
    extractedOk hs → extractedOk (selectLoop hs markup) := by
  induction markup with
  | nil =>
    intro hs h
    exact h
  | cons els rest ih =>
    intro hs h
    rw [selectLoop]
    split
    · next hemp =>
      apply ih
      have he : hs = [] := by simpa using hemp
      subst he
      apply processElements_ok els []
      · decide
      · exact List.nodup_nil
      · intro h hh
        cases hh
    · exact h

/-- C1: for every markup input, `fetch_headlines` returns at most 20
candidates, no two candidates share a link, every title length is in
[10, 150], and every link starts with `http://` or `https://`. -/
theorem C1_extract_bounds (r : FetchResult) :
    (fetch_headlines r).length ≤ 20 ∧
    ((fetch_headlines r).map Headline.url).Nodup ∧
    ∀ h ∈ fetch_headlines r,
      (10 ≤ h.title.length ∧ h.title.length ≤ 150) ∧
      (strStartsWith h.url httpPre = true ∨ strStartsWith h.url httpsPre = true) := by
  have hok : extractedOk (fetch_headlines r) := by
    cases r with
    | failure => exact extractedOk_nil
    | success markup => exact selectLoop_ok markup [] extractedOk_nil
  exact ⟨hok.1, hok.2.1, fun h hh => hok.2.2 h hh⟩

lemma selectLoop_of_ne (markup : List (List Element)) (hs : List Headline)
    (h : hs ≠ []) : selectLoop hs markup = hs := by
  cases markup with
  | nil => rfl
  | cons els rest =>
    rw [selectLoop, if_neg]
    simpa using h

lemma selectLoop_fallback : ∀ (pre post : List (List Element)) (els : List Element),
    (∀ e ∈ pre, processElements [] e = []) → processElements [] els ≠ [] →
    selectLoop [] (pre ++ els :: post) = processElements [] els := by
  intro pre
  induction pre with
  | nil =>
    intro post els _ hne
    rw [List.nil_append, selectLoop,
      if_pos (show ([] : List Headline).isEmpty = true from rfl)]
    exact selectLoop_of_ne post _ hne
  | cons p ps ih =>
    intro post els hpre hne
    rw [List.cons_append, selectLoop,
      if_pos (show ([] : List Headline).isEmpty = true from rfl)]
    rw [hpre p (by simp)]
    exact ih post els (fun e he => hpre e (by simp [he])) hne

/-- C2: rules are evaluated in priority order and evaluation stops at the
first rule that yields an accepted candidate: if every earlier rule has
all its matches rejected and some rule accepts at least one candidate,
the extraction output is exactly that rule's output, whatever the later
rules would match. -/
theorem C2_first_rule_wins (pre post : List (List Element)) (els : List Element)
    (hpre : ∀ e ∈ pre, processElements [] e = [])
    (hne : processElements [] els ≠ []) :
    fetch_headlines (.success (pre ++ els :: post)) = processElements [] els := by
  unfold fetch_headlines
  exact selectLoop_fallback pre post els hpre hne

/-- A markup fixture matching both an earlier (all-rejected) rule and two
later rules: only the first accepting rule's candidate appears. -/
theorem C2_first_rule_wins_witness :
    (∀ e ∈ [[Element.mk "short".toList (some "/a".toList)]],
      processElements [] e = []) ∧
    processElements [] [Element.mk "abcdefghij".toList (some "https://x".toList)] ≠ [] ∧
    fetch_headlines (.success
        ([[Element.mk "short".toList (some "/a".toList)]] ++
          [Element.mk "abcdefghij".toList (some "https://x".toList)] ::
            [[Element.mk "abcdefghijklm".toList (some "https://y".toList)]])) =
      processElements [] [Element.mk "abcdefghij".toList (some "https://x".toList)] :=
  ⟨by decide, by decide,
    C2_first_rule_wins
      [[Element.mk "short".toList (some "/a".toList)]]
      [[Element.mk "abcdefghijklm".toList (some "https://y".toList)]]
      [Element.mk "abcdefghij".toList (some "https://x".toList)]
      (by decide) (by decide)⟩

/-- C9: extraction is total and degrades to empty rather than raising: a
fetch/parse failure yields the empty sequence, and a per-candidate defect
(missing link attribute, degenerate title) only skips that candidate. -/
theorem C9_extract_degrades :
    fetch_headlines .failure = [] ∧
    (∀ (hs : List Headline) (e : Element) (rest : List Element), e.href = none →
      processElements hs (e :: rest) = processElements hs rest) ∧
    (∀ (hs : List Headline) (e : Element) (rest : List Element), e.text.length < 10 →
      processElements hs (e :: rest) = processElements hs rest) := by
  refine ⟨rfl, ?_, ?_⟩
  · intro hs e rest h
    rw [processElements]
    split
    · rfl
    · rw [h, if_pos (show (none : Option Str).getD [] = [] from rfl)]
  · intro hs e rest h
    rw [processElements]
    rw [if_pos (Or.inr (Or.inl h))]

/-- An element with no `href` and one with a 5-character title are both
skipped, leaving the remaining elements' processing unchanged. -/
theorem C9_extract_degrades_witness :
    fetch_headlines .failure = [] ∧
    (Element.mk "abcdefghij".toList none).href = none ∧
    processElements [] [Element.mk "abcdefghij".toList none] = processElements [] [] ∧
    (Element.mk "short".toList (some "https://x".toList)).text.length < 10 ∧
    processElements [] [Element.mk "short".toList (some "https://x".toList)] =
      processElements [] [] :=
  ⟨C9_extract_degrades.1, rfl,
    C9_extract_degrades.2.1 [] (Element.mk "abcdefghij".toList none) [] rfl,
    by decide,
    C9_extract_degrades.2.2 [] (Element.mk "short".toList (some "https://x".toList)) []
      (by decide)⟩

/-! ### Store lemmas -/

/-- Specification-side formulation of `saveNew` (from the spec's words,
for comparison with `save_headlines`): keep each candidate, in input
order, whose title is not among the titles seen so far, where "seen"
starts from the store's titles and grows with each kept candidate. -/
def saveNewSpec (seen : List Str) : List Headline → List Headline
  | [] => []
  | h :: t =>
    if h.title ∈ seen then saveNewSpec seen t
    else h :: saveNewSpec (h.title :: seen) t

lemma saveNewSpec_congr (hs : List Headline) : ∀ s1 s2 : List Str,
    (∀ t, t ∈ s1 ↔ t ∈ s2) → saveNewSpec s1 hs = saveNewSpec s2 hs := by
  induction hs with
  | nil => intro s1 s2 _; rfl
  | cons h t ih =>
    intro s1 s2 hset
    rw [saveNewSpec, saveNewSpec]
    by_cases hm : h.title ∈ s1
    · rw [if_pos hm, if_pos ((hset h.title).mp hm)]
      exact ih s1 s2 hset
    · rw [if_neg hm, if_neg (fun hc => hm ((hset h.title).mpr hc))]
      refine congrArg (h :: ·) (ih _ _ ?_)
      intro t2
      simp only [List.mem_cons]
      exact or_congr Iff.rfl (hset t2)

lemma save_headlines_any_iff (store : List SeenRecord) (t : Str) :
    (store.any fun r => r.title = t) = true ↔ t ∈ store.map SeenRecord.title := by
  rw [List.any_eq_true]
  constructor
  · rintro ⟨r, hr, hrt⟩
    rw [decide_eq_true_eq] at hrt
    exact List.mem_map.mpr ⟨r, hr, hrt⟩
  · intro hm
    obtain ⟨r, hr, hrt⟩ := List.mem_map.mp hm
    exact ⟨r, hr, by simp [hrt]⟩

lemma save_headlines_new_eq_spec (hs : List Headline) : ∀ store : List SeenRecord,
    (save_headlines store hs).2 = saveNewSpec (store.map SeenRecord.title) hs := by
  induction hs with
  | nil => intro store; rfl
  | cons item rest ih =>
    intro store
    rw [save_headlines, saveNewSpec]
    by_cases hseen : item.title ∈ store.map SeenRecord.title
    · rw [if_pos ((save_headlines_any_iff store item.title).mpr hseen), if_pos hseen]
      exact ih store
    · rw [if_neg (fun hc => hseen ((save_headlines_any_iff store item.title).mp hc)),
        if_neg hseen]
      simp only
      refine congrArg (item :: ·) ?_
      rw [ih (store ++ [SeenRecord.mk item.title item.url])]
      apply saveNewSpec_congr
      intro t
      simp [List.mem_cons, or_comm]

lemma save_headlines_sublist (hs : List Headline) : ∀ store : List SeenRecord,
    (save_headlines store hs).2.Sublist hs := by
  induction hs with
  | nil => intro store; exact List.Sublist.refl []
  | cons item rest ih =>
    intro store
    rw [save_headlines]
    by_cases hseen : (store.any fun r => r.title = item.title) = true
    · rw [if_pos hseen]
      exact List.Sublist.cons item (ih store)
    · rw [if_neg hseen]
      exact List.Sublist.cons₂ item (ih (store ++ [SeenRecord.mk item.title item.url]))

lemma save_headlines_store_eq (hs : List Headline) : ∀ store : List SeenRecord,
    (save_headlines store hs).1 =
      store ++ (save_headlines store hs).2.map (fun h => SeenRecord.mk h.title h.url) := by
  induction hs with
  | nil => intro store; simp [save_headlines]
  | cons item rest ih =>
    intro store
    rw [save_headlines]
    by_cases hseen : (store.any fun r => r.title = item.title) = true
    · rw [if_pos hseen]
      exact ih store
    · rw [if_neg hseen]
      simp only [List.map_cons]
      rw [ih (store ++ [SeenRecord.mk item.title item.url])]
      rw [List.append_assoc]
      rfl

/-- C3: `save_headlines` returns exactly the subsequence of candidates
whose title had no record at the moment that candidate was processed
(equivalently, the title-set-filtered sequence starting from the store's
titles), preserves input order, and inserts exactly one record per
returned candidate (the final table is the initial one followed by one
row per returned candidate). -/
theorem C3_saveNew_exact (store : List SeenRecord) (hs : List Headline) :
    (save_headlines store hs).2 = saveNewSpec (store.map SeenRecord.title) hs ∧
    (save_headlines store hs).2.Sublist hs ∧
    (save_headlines store hs).1 =
      store ++ (save_headlines store hs).2.map (fun h => SeenRecord.mk h.title h.url) :=
  ⟨save_headlines_new_eq_spec hs store, save_headlines_sublist hs store,
    save_headlines_store_eq hs store⟩

lemma save_headlines_mem_title (hs : List Headline) : ∀ (store : List SeenRecord)
    (h : Headline), h ∈ hs →
    h.title ∈ (save_headlines store hs).1.map SeenRecord.title := by
  induction hs with
  | nil => intro store h hh; cases hh
  | cons item rest ih =>
    intro store h hh
    rw [save_headlines]
    by_cases hseen : (store.any fun r => r.title = item.title) = true
    · rw [if_pos hseen]
      rcases List.mem_cons.mp hh with heq | hh2
      · subst heq
        have hm := (save_headlines_any_iff store h.title).mp hseen
        rw [save_headlines_store_eq rest store, List.map_append]
        exact List.mem_append_left _ hm
      · exact ih store h hh2
    · rw [if_neg hseen]
      rcases List.mem_cons.mp hh with heq | hh2
      · subst heq
        rw [save_headlines_store_eq rest (store ++ [SeenRecord.mk h.title h.url])]
        simp
      · exact ih (store ++ [SeenRecord.mk item.title item.url]) h hh2

lemma save_headlines_all_seen (hs : List Headline) : ∀ store : List SeenRecord,
    (∀ h ∈ hs, h.title ∈ store.map SeenRecord.title) →
    (save_headlines store hs).2 = [] := by
  induction hs with
  | nil => intro store _; rfl
  | cons item rest ih =>
    intro store hall
    rw [save_headlines, if_pos ((save_headlines_any_iff store item.title).mpr
      (hall item (List.mem_cons_self item rest)))]
    exact ih store (fun h hh => hall h (List.mem_cons_of_mem item hh))

lemma save_headlines_idem (store : List SeenRecord) (hs : List Headline) :
    (save_headlines (save_headlines store hs).1 hs).2 = [] := by
  apply save_headlines_all_seen
  intro h hh
  exact save_headlines_mem_title hs store h hh

/-- At most one stored record per distinct title. -/
def distinctTitles (store : List SeenRecord) : Prop :=
  (store.map SeenRecord.title).Nodup

lemma save_headlines_distinct (hs : List Headline) : ∀ store : List SeenRecord,
    distinctTitles store → distinctTitles (save_headlines store hs).1 := by
  induction hs with
  | nil => intro store h; exact h
  | cons item rest ih =>
    intro store hd
    rw [save_headlines]
    by_cases hseen : (store.any fun r => r.title = item.title) = true
    · rw [if_pos hseen]
      exact ih store hd
    · rw [if_neg hseen]
      apply ih
      unfold distinctTitles at hd ⊢
      rw [List.map_append, List.map_cons, List.map_nil, List.nodup_append]
      refine ⟨hd, List.nodup_singleton _, ?_⟩
      intro a ha hb
      rw [List.mem_singleton] at hb
      subst hb
      exact hseen ((save_headlines_any_iff store item.title).mpr ha)

lemma save_headlines_fold_distinct (calls : List (List Headline)) :
    ∀ store : List SeenRecord, distinctTitles store →
    distinctTitles (calls.foldl (fun st c => (save_headlines st c).1) store) := by
  induction calls with
  | nil => intro store h; exact h
  | cons c cs ih =>
    intro store hd
    exact ih _ (save_headlines_distinct c store hd)

/-- C4: `save_headlines` is idempotent on title and preserves the store
invariant: a second call with the same candidate sequence returns the
empty sequence, and after any sequence of calls (starting from a store
with distinct titles, e.g. the empty one) the store has at most one
record per distinct title, even when one call's input repeats a title
with different links. -/
theorem C4_saveNew_idempotent (store : List SeenRecord) (hs : List Headline)
    (calls : List (List Headline)) (hd : distinctTitles store) :
    (save_headlines (save_headlines store hs).1 hs).2 = [] ∧
    distinctTitles (calls.foldl (fun st c => (save_headlines st c).1) store) :=
  ⟨save_headlines_idem store hs, save_headlines_fold_distinct calls store hd⟩

/-- A single call whose input repeats a title with two different links:
the second call returns nothing and the store keeps distinct titles. -/
theorem C4_saveNew_idempotent_witness :
    distinctTitles [] ∧
    ((save_headlines
        (save_headlines []
          [Headline.mk "t1".toList "u1".toList, Headline.mk "t1".toList "u2".toList]).1
        [Headline.mk "t1".toList "u1".toList, Headline.mk "t1".toList "u2".toList]).2 = [] ∧
      distinctTitles
        ([[Headline.mk "t1".toList "u1".toList, Headline.mk "t1".toList "u2".toList]].foldl
          (fun st c => (save_headlines st c).1) [])) :=
  ⟨by unfold distinctTitles; exact List.nodup_nil,
    C4_saveNew_idempotent []
      [Headline.mk "t1".toList "u1".toList, Headline.mk "t1".toList "u2".toList]
      [[Headline.mk "t1".toList "u1".toList, Headline.mk "t1".toList "u2".toList]]
      (by unfold distinctTitles; exact List.nodup_nil)⟩

/-! ### Notifier lemmas -/

lemma notifyLoop_spec (outcome : Nat → SendOutcome) : ∀ (ids : List Str) (i : Nat),
    (notifyLoop outcome i ids).1 =
      (List.range ids.length).countP
        (fun j => decide (outcome (i + j) = SendOutcome.response 200)) ∧
    (notifyLoop outcome i ids).2 = ids := by
  intro ids
  induction ids with
  | nil => intro i; exact ⟨rfl, rfl⟩
  | cons cid rest ih =>
    intro i
    rw [notifyLoop]
    constructor
    · show (if outcome i = SendOutcome.response 200 then 1 else 0) +
        (notifyLoop outcome (i + 1) rest).1 = _
      rw [(ih (i + 1)).1, List.length_cons, List.range_succ_eq_map, List.countP_cons,
        List.countP_map]
      have hc : List.countP
          ((fun j => decide (outcome (i + j) = SendOutcome.response 200)) ∘ Nat.succ)
          (List.range rest.length) =
          List.countP (fun j => decide (outcome (i + 1 + j) = SendOutcome.response 200))
          (List.range rest.length) := by
        apply List.countP_congr
        intro x _
        simp only [Function.comp_apply]
        rw [show i + Nat.succ x = i + 1 + x from by omega]
      rw [hc]
      have hif : (if (fun j => decide (outcome (i + j) = SendOutcome.response 200)) 0 = true
          then 1 else 0) = (if outcome i = SendOutcome.response 200 then 1 else 0) := by
        simp only [decide_eq_true_eq, Nat.add_zero]
      rw [hif, Nat.add_comm]
    · show cid :: (notifyLoop outcome (i + 1) rest).2 = cid :: rest
      rw [(ih (i + 1)).2]

/-- C5: with a valid token, the notifier attempts delivery to every
recipient in order regardless of earlier failures, reports
attempted = number of recipients, and succeeded = the number of attempts
whose outcome was an HTTP 200 response. -/
theorem C5_notifier_isolation (token : Option Str) (chat_ids : List Str)
    (outcome : Nat → SendOutcome) (htok : tokenTruthy token = true) :
    (send_telegram_notification token chat_ids outcome).2.1 = chat_ids.length ∧
    (send_telegram_notification token chat_ids outcome).2.2 = chat_ids ∧
    (send_telegram_notification token chat_ids outcome).1 =
      (List.range chat_ids.length).countP
        (fun j => decide (outcome j = SendOutcome.response 200)) := by
  unfold send_telegram_notification
  rw [htok]
  simp only [Bool.not_true, Bool.false_or]
  cases chat_ids with
  | nil => exact ⟨rfl, rfl, rfl⟩
  | cons c cs =>
    rw [if_neg (by simp)]
    refine ⟨rfl, (notifyLoop_spec outcome (c :: cs) 0).2, ?_⟩
    show (notifyLoop outcome 0 (c :: cs)).1 = _
    rw [(notifyLoop_spec outcome (c :: cs) 0).1]
    apply List.countP_congr
    intro x _
    simp only [Nat.zero_add]

/-- Three recipients where the second attempt raises an exception: all
three are attempted, attempted = 3 and succeeded = 2. -/
theorem C5_notifier_isolation_witness :
    tokenTruthy (some "tok".toList) = true ∧
    ((send_telegram_notification (some "tok".toList)
          ["1".toList, "2".toList, "3".toList]
          (fun i => if i = 1 then SendOutcome.exn else SendOutcome.response 200)).2.1 =
        (["1".toList, "2".toList, "3".toList] : List Str).length ∧
      (send_telegram_notification (some "tok".toList)
          ["1".toList, "2".toList, "3".toList]
          (fun i => if i = 1 then SendOutcome.exn else SendOutcome.response 200)).2.2 =
        ["1".toList, "2".toList, "3".toList] ∧
      (send_telegram_notification (some "tok".toList)
          ["1".toList, "2".toList, "3".toList]
          (fun i => if i = 1 then SendOutcome.exn else SendOutcome.response 200)).1 =
        (List.range (["1".toList, "2".toList, "3".toList] : List Str).length).countP
          (fun j => decide ((if j = 1 then SendOutcome.exn else SendOutcome.response 200) =
            SendOutcome.response 200))) ∧
    (send_telegram_notification (some "tok".toList)
        ["1".toList, "2".toList, "3".toList]
        (fun i => if i = 1 then SendOutcome.exn else SendOutcome.response 200)).1 = 2 :=
  ⟨by decide,
    C5_notifier_isolation (some "tok".toList) ["1".toList, "2".toList, "3".toList]
      (fun i => if i = 1 then SendOutcome.exn else SendOutcome.response 200) (by decide),
    by decide⟩

/-! ### Message formatting lemmas -/

lemma truncTitle_le (t : Str) : (truncTitle t).length ≤ 80 := by
  unfold truncTitle
  split
  next h =>
    rw [List.length_append, List.length_take]
    have h3 : ("...".toList).length = 3 := by decide
    omega
  next h => omega

lemma buildEntries_idxs : ∀ (l : List Headline) (idx : Nat),
    (buildEntries idx l).map (fun e => e.1) = List.range' idx l.length := by
  intro l
  induction l with
  | nil => intro idx; rfl
  | cons h t ih =>
    intro idx
    rw [buildEntries, List.map_cons, List.length_cons, List.range'_succ]
    rw [ih (idx + 1)]

lemma buildEntries_titles : ∀ (l : List Headline) (idx : Nat),
    (buildEntries idx l).map (fun e => e.2.1) = l.map (fun h => truncTitle h.title) := by
  intro l
  induction l with
  | nil => intro idx; rfl
  | cons h t ih =>
    intro idx
    rw [buildEntries, List.map_cons, List.map_cons, ih (idx + 1)]

lemma buildEntries_urls : ∀ (l : List Headline) (idx : Nat),
    (buildEntries idx l).map (fun e => e.2.2) = l.map Headline.url := by
  intro l
  induction l with
  | nil => intro idx; rfl
  | cons h t ih =>
    intro idx
    rw [buildEntries, List.map_cons, List.map_cons, ih (idx + 1)]

lemma buildEntries_title_le : ∀ (l : List Headline) (idx : Nat),
    ∀ e ∈ buildEntries idx l, (e.2.1 : Str).length ≤ 80 := by
  intro l
  induction l with
  | nil => intro idx e he; cases he
  | cons h t ih =>
    intro idx e he
    rw [buildEntries] at he
    rcases List.mem_cons.mp he with heq | he2
    · subst heq
      exact truncTitle_le h.title
    · exact ih (idx + 1) e he2

/-- C6: the headline notification message embeds only the first 5 new
items, in order and numbered from 1, every embedded title is truncated
to at most 80 characters, and every new item (also those beyond the
first 5) has its record in the table produced by the preceding save. -/
theorem C6_message_first_five (store : List SeenRecord) (candidates : List Headline)
    (_hne : (save_headlines store candidates).2 ≠ []) :
    (headlineMessageEntries (save_headlines store candidates).2).map (fun e => e.1) =
      List.range' 1 ((save_headlines store candidates).2.take 5).length ∧
    (headlineMessageEntries (save_headlines store candidates).2).map (fun e => e.2.1) =
      ((save_headlines store candidates).2.take 5).map (fun h => truncTitle h.title) ∧
    (headlineMessageEntries (save_headlines store candidates).2).map (fun e => e.2.2) =
      ((save_headlines store candidates).2.take 5).map Headline.url ∧
    (∀ e ∈ headlineMessageEntries (save_headlines store candidates).2,
      (e.2.1 : Str).length ≤ 80) ∧
    (∀ h ∈ (save_headlines store candidates).2,
      SeenRecord.mk h.title h.url ∈ (save_headlines store candidates).1) := by
  refine ⟨buildEntries_idxs _ 1, buildEntries_titles _ 1, buildEntries_urls _ 1,
    buildEntries_title_le _ 1, ?_⟩
  intro h hh
  rw [save_headlines_store_eq candidates store]
  apply List.mem_append_right
  exact List.mem_map.mpr ⟨h, hh, rfl⟩

/-- One fresh candidate against the empty store: the returned new subset
is non-empty and the message entry maps match the first-five cap. -/
theorem C6_message_first_five_witness :
    (save_headlines [] [Headline.mk "t1".toList "https://x".toList]).2 ≠ [] ∧
    (headlineMessageEntries
        (save_headlines [] [Headline.mk "t1".toList "https://x".toList]).2).map
        (fun e => e.1) =
      List.range' 1
        ((save_headlines [] [Headline.mk "t1".toList "https://x".toList]).2.take 5).length ∧
    (headlineMessageEntries
        (save_headlines [] [Headline.mk "t1".toList "https://x".toList]).2).map
        (fun e => e.2.1) =
      ((save_headlines [] [Headline.mk "t1".toList "https://x".toList]).2.take 5).map
        (fun h => truncTitle h.title) ∧
    (headlineMessageEntries
        (save_headlines [] [Headline.mk "t1".toList "https://x".toList]).2).map
        (fun e => e.2.2) =
      ((save_headlines [] [Headline.mk "t1".toList "https://x".toList]).2.take 5).map
        Headline.url :=
  ⟨by decide,
    (C6_message_first_five [] [Headline.mk "t1".toList "https://x".toList] (by decide)).1,
    (C6_message_first_five [] [Headline.mk "t1".toList "https://x".toList] (by decide)).2.1,
    (C6_message_first_five [] [Headline.mk "t1".toList "https://x".toList] (by decide)).2.2.1⟩

/-! ### Orchestrator lemmas -/

lemma bootEvents_sub (env : Env) : ∀ e ∈ bootEvents env, e = Event.bootstrapSent := by
  intro e he
  unfold bootEvents at he
  split at he
  · split at he
    · rw [List.mem_singleton] at he
      exact he
    · cases he
  · cases he

lemma mainRun_tail (env : Env) : ∃ tail : List Event,
    (mainRun env).1 = bootEvents env ++ tail ∧ Event.bootstrapSent ∉ tail := by
  unfold mainRun
  rcases hdb : env.dbInit with _ | store
  · exact ⟨[Event.dbInitFailed], rfl, by decide⟩
  · simp only
    by_cases hfe : (fetch_headlines env.fetch).isEmpty = true
    · rw [if_pos hfe]
      exact ⟨[Event.dbInitOk, Event.fetched 0], rfl, by decide⟩
    · rw [if_neg hfe]
      by_cases hnc :
          (!(save_headlines store (fetch_headlines env.fetch)).2.isEmpty && credsOk env) = true
      · rw [if_pos hnc]
        refine ⟨[Event.dbInitOk, Event.fetched (fetch_headlines env.fetch).length,
          Event.saved (save_headlines store (fetch_headlines env.fetch)).2.length,
          Event.headlineNotifySent], by simp, ?_⟩
        intro hm
        rcases List.mem_cons.mp hm with h | hm
        · cases h
        rcases List.mem_cons.mp hm with h | hm
        · cases h
        rcases List.mem_cons.mp hm with h | hm
        · cases h
        rcases List.mem_cons.mp hm with h | hm
        · cases h
        cases hm
      · rw [if_neg hnc]
        refine ⟨[Event.dbInitOk, Event.fetched (fetch_headlines env.fetch).length,
          Event.saved (save_headlines store (fetch_headlines env.fetch)).2.length], rfl, ?_⟩
        intro hm
        rcases List.mem_cons.mp hm with h | hm
        · cases h
        rcases List.mem_cons.mp hm with h | hm
        · cases h
        rcases List.mem_cons.mp hm with h | hm
        · cases h
        cases hm

/-- The claim's ordering is refuted by the code: with valid credentials
and a zero row count, a run whose database initialization fails has
nevertheless sent the bootstrap notification, since `main` sends it
before calling `setup_database`. -/
theorem C7_counterexample :
    credsOk (Env.mk (some "tok".toList) ["1".toList] (Except.ok 0) none .failure) = true ∧
    (Env.mk (some "tok".toList) ["1".toList] (Except.ok 0) none
        FetchResult.failure).firstRunCheck = Except.ok 0 ∧
    (Env.mk (some "tok".toList) ["1".toList] (Except.ok 0) none
        FetchResult.failure).dbInit = none ∧
    Event.bootstrapSent ∈
      (mainRun (Env.mk (some "tok".toList) ["1".toList] (Except.ok 0) none
        FetchResult.failure)).1 :=
  ⟨by decide, rfl, rfl, by decide⟩

/-- C7 (amended): in every run with valid notification configuration and
a zero row count before any writes, exactly one bootstrap notification
is sent, and it is the first externally visible action of the run — it
precedes database initialization (so it happens whether or not that
initialization later succeeds) and any headline-derived notification,
even when zero new headlines are found. -/
theorem C7_bootstrap_once_first (env : Env) (hc : credsOk env = true)
    (hfr : env.firstRunCheck = Except.ok 0) :
    (mainRun env).1.count Event.bootstrapSent = 1 ∧
    (mainRun env).1.head? = some Event.bootstrapSent := by
  obtain ⟨tail, heq, hnm⟩ := mainRun_tail env
  have hboot : bootEvents env = [Event.bootstrapSent] := by
    unfold bootEvents
    rw [hc, hfr]
    simp [is_first_run]
  rw [heq, hboot, List.singleton_append]
  constructor
  · rw [List.count_cons, List.count_eq_zero.mpr hnm]
    simp
  · rw [List.head?_cons]

/-- An empty store, valid credentials and no new headlines: one bootstrap
notification, sent first. -/
theorem C7_bootstrap_once_first_witness :
    credsOk (Env.mk (some "tok".toList) ["1".toList] (Except.ok 0) (some [])
      FetchResult.failure) = true ∧
    (Env.mk (some "tok".toList) ["1".toList] (Except.ok 0) (some [])
      FetchResult.failure).firstRunCheck = Except.ok 0 ∧
    ((mainRun (Env.mk (some "tok".toList) ["1".toList] (Except.ok 0) (some [])
        FetchResult.failure)).1.count Event.bootstrapSent = 1 ∧
      (mainRun (Env.mk (some "tok".toList) ["1".toList] (Except.ok 0) (some [])
        FetchResult.failure)).1.head? = some Event.bootstrapSent) :=
  ⟨by decide, rfl,
    C7_bootstrap_once_first
      (Env.mk (some "tok".toList) ["1".toList] (Except.ok 0) (some []) FetchResult.failure)
      (by decide) rfl⟩

/-- The claim's non-zero exit code is refuted by the code: when
`setup_database` returns `None`, `main` just returns, so the process
exit code is 0, not non-zero. -/
theorem C8_counterexample :
    (Env.mk none [] (Except.ok 0) none FetchResult.failure).dbInit = none ∧
    ¬ ((mainRun (Env.mk none [] (Except.ok 0) none FetchResult.failure)).2 ≠ 0) :=
  ⟨rfl, by decide⟩

/-- C8 (amended): storage-initialization failure terminates the run
without fetching, saving, or notifying about headlines, but every run —
including that one and the normal-completion branches — exits with
code 0. -/
theorem C8_exit_and_abort (env : Env) :
    (mainRun env).2 = 0 ∧
    (env.dbInit = none →
      (∀ n : Nat, Event.fetched n ∉ (mainRun env).1 ∧ Event.saved n ∉ (mainRun env).1) ∧
      Event.headlineNotifySent ∉ (mainRun env).1) := by
  constructor
  · unfold mainRun
    rcases hdb : env.dbInit with _ | store
    · rfl
    · simp only
      by_cases hfe : (fetch_headlines env.fetch).isEmpty = true
      · rw [if_pos hfe]
      · rw [if_neg hfe]
        by_cases hnc : (!(save_headlines store (fetch_headlines env.fetch)).2.isEmpty &&
            credsOk env) = true
        · rw [if_pos hnc]
        · rw [if_neg hnc]
  · intro hdb
    have hev : (mainRun env).1 = bootEvents env ++ [Event.dbInitFailed] := by
      unfold mainRun
      rw [hdb]
    have hnotin : ∀ ev : Event, ev ≠ Event.bootstrapSent → ev ≠ Event.dbInitFailed →
        ev ∉ (mainRun env).1 := by
      intro ev h1 h2 hm
      rw [hev] at hm
      rcases List.mem_append.mp hm with hm | hm
      · exact h1 (bootEvents_sub env ev hm)
      · rw [List.mem_singleton] at hm
        exact h2 hm
    refine ⟨fun n => ⟨?_, ?_⟩, ?_⟩
    · exact hnotin (Event.fetched n) (by intro h; cases h) (by intro h; cases h)
    · exact hnotin (Event.saved n) (by intro h; cases h) (by intro h; cases h)
    · exact hnotin Event.headlineNotifySent (by intro h; cases h) (by intro h; cases h)

/-- A run whose database initialization fails: exit code 0 and no
fetch/save/notify events. -/
theorem C8_exit_and_abort_witness :
    (mainRun (Env.mk none [] (Except.ok 3) none FetchResult.failure)).2 = 0 ∧
    Event.fetched 3 ∉ (mainRun (Env.mk none [] (Except.ok 3) none FetchResult.failure)).1 ∧
    Event.saved 3 ∉ (mainRun (Env.mk none [] (Except.ok 3) none FetchResult.failure)).1 ∧
    Event.headlineNotifySent ∉
      (mainRun (Env.mk none [] (Except.ok 3) none FetchResult.failure)).1 :=
  ⟨(C8_exit_and_abort (Env.mk none [] (Except.ok 3) none FetchResult.failure)).1,
    (((C8_exit_and_abort (Env.mk none [] (Except.ok 3) none FetchResult.failure)).2 rfl).1 3).1,
    (((C8_exit_and_abort (Env.mk none [] (Except.ok 3) none FetchResult.failure)).2 rfl).1 3).2,
    ((C8_exit_and_abort (Env.mk none [] (Except.ok 3) none FetchResult.failure)).2 rfl).2⟩

/-- C10: a storage error during the first-run check makes `is_first_run`
return `True`, so the run counts as a first run and, with valid
credentials, the bootstrap notification is sent. -/
theorem C10_error_is_first_run (env : Env)
    (herr : env.firstRunCheck = Except.error ()) :
    is_first_run env.firstRunCheck = true ∧
    (credsOk env = true → Event.bootstrapSent ∈ (mainRun env).1) := by
  constructor
  · rw [herr]
    rfl
  · intro hc
    obtain ⟨tail, heq, _⟩ := mainRun_tail env
    rw [heq]
    apply List.mem_append_left
    unfold bootEvents
    rw [hc, herr]
    simp [is_first_run]

/-- A run whose row-count query fails yet has valid credentials: the
first-run check is true and the bootstrap notification is sent. -/
theorem C10_error_is_first_run_witness :
    (Env.mk (some "tok".toList) ["1".toList] (Except.error ()) (some [])
      FetchResult.failure).firstRunCheck = Except.error () ∧
    credsOk (Env.mk (some "tok".toList) ["1".toList] (Except.error ()) (some [])
      FetchResult.failure) = true ∧
    is_first_run (Env.mk (some "tok".toList) ["1".toList] (Except.error ()) (some [])
      FetchResult.failure).firstRunCheck = true ∧
    Event.bootstrapSent ∈
      (mainRun (Env.mk (some "tok".toList) ["1".toList] (Except.error ()) (some [])
        FetchResult.failure)).1 :=
  ⟨rfl, by decide,
    (C10_error_is_first_run
      (Env.mk (some "tok".toList) ["1".toList] (Except.error ()) (some [])
        FetchResult.failure) rfl).1,
    (C10_error_is_first_run
      (Env.mk (some "tok".toList) ["1".toList] (Except.error ()) (some [])
        FetchResult.failure) rfl).2 (by decide)⟩
